import Mathlib

/-!
# Verification of the p5.brush path/fill subsystem

Shallow embedding of the brush library's Plot/Spline path system, the
Position/flow-field movement model, polygon intersection, watercolor fill
growth and the bleed setter, together with proofs about the behaviour of
those embedded operations.

Conventions of the embedding:
* JavaScript numbers are modelled by an arbitrary linear ordered field `K`
  (instantiated with `ℚ` for concrete evaluations and with `ℝ` where the
  source uses transcendental functions).  Floating point rounding, `NaN`
  and `Infinity` are not modelled; where the source would produce `NaN`
  (out-of-range array reads, a crash) the embedding returns `none`.
* JavaScript `%` truncates towards zero; it is embedded as `jsMod`.
* Mutable object state (`Plot.index`/`Plot.suma`, `Position` fields) is
  passed explicitly.
-/

/-- JavaScript `Math.trunc`-style integer part (rounds towards zero),
used to embed the JavaScript `%` operator. -/
def jsTrunc {K : Type*} [LinearOrderedField K] [FloorRing K] (x : K) : ℤ :=
  if 0 ≤ x then ⌊x⌋ else -⌊-x⌋

/-- JavaScript remainder `a % b`: `a - b * trunc (a / b)` (sign of the
dividend). -/
def jsMod {K : Type*} [LinearOrderedField K] [FloorRing K] (a b : K) : K :=
  a - b * (jsTrunc (a / b) : ℤ)

/-- JavaScript `Math.round`: half-up rounding towards plus infinity. -/
def jsRound {K : Type*} [LinearOrderedField K] [FloorRing K] (x : K) : ℤ :=
  ⌊x + 1 / 2⌋

/-- JavaScript array read `arr[i]`: `none` models `undefined`
(negative or past-the-end index). -/
def jsGet {α : Type*} (l : List α) (i : ℤ) : Option α :=
  if 0 ≤ i then l.get? i.toNat else none

/-- Mathematical floor-based modulus into `[0, m)`; used only in
specification statements (circular distance), not in the embedding. -/
def posMod {K : Type*} [LinearOrderedField K] [FloorRing K] (a m : K) : K :=
  a - m * ⌊a / m⌋

/-- Circular (mod 360) distance between two angle values; a specification
notion used to state the shortest-path interpolation property. -/
def circDist {K : Type*} [LinearOrderedField K] [FloorRing K] (a b : K) : K :=
  min (posMod (a - b) 360) (360 - posMod (a - b) 360)

/-!
## R-object utilities (`R.map`, `R.constrain`)

From the `R` utility object:
`constrain(n,low,high) = Math.max(Math.min(n,high),low)` and
`map(value,a,b,c,d,withinBounds)` remaps linearly and, when
`withinBounds`, constrains the result into the target interval.
-/

/-- `R.constrain(n, low, high) = Math.max(Math.min(n, high), low)`. -/
def Rconstrain {K : Type*} [LinearOrderedField K] (n low high : K) : K :=
  max (min n high) low

/-- `R.map(value,a,b,c,d,withinBounds)`: linear remap
`c + (value-a)/(b-a)*(d-c)`, constrained into the target range when
`withinBounds` is set (the source orders the constrain bounds by
comparing `c < d`). -/
def Rmap {K : Type*} [LinearOrderedField K]
    (value a b c d : K) (withinBounds : Bool) : K :=
  let r := c + (value - a) / (b - a) * (d - c)
  if !withinBounds then r
  else if c < d then Rconstrain r c d else Rconstrain r d c

/-!
## The Plot class

A `Plot` is an ordered list of `(angle, length, pressure)` segments with
`N` segments and (after `endPlot`) `N+1` angle/pressure node samples.
The mutable fields `this.index` / `this.suma` written by `calcIndex` are
threaded explicitly as a pair `ℤ × K`.  `this.length` starts out
`undefined` in JavaScript (it is first assigned inside `addSegment`); the
embedding initialises it to `0`.
-/

/-- The plot type tag: `"curve"` or `"segments"`. -/
inductive PlotType where
  | curve
  | segments
deriving DecidableEq, Repr

/-- The `Plot` object state: segment lengths, angle and pressure node
samples, rotation offset `dir`, accumulated `length` and optional
`origin`. -/
structure Plot (K : Type*) where
  type : PlotType
  segments : List K
  angles : List K
  pres : List K
  dir : K
  length : K
  origin : Option (K × K)
deriving DecidableEq

/-- The `Plot` constructor: empty lists, `dir = 0`. -/
def Plot.init {K : Type*} [LinearOrderedField K] (t : PlotType) : Plot K :=
  { type := t, segments := [], angles := [], pres := [], dir := 0,
    length := 0, origin := none }

/-- Angle-mode conversion used by `addSegment` / `endPlot` / `rotate`:
when the p5 angle mode is radians and the `_degrees` flag is not set, the
angle argument is converted by `_a * 180 / Math.PI`.  `piv` is the
embedding of `Math.PI` (instantiated with `Real.pi` over `ℝ`; unused in
degree mode). -/
def toDegrees {K : Type*} [LinearOrderedField K]
    (radMode : Bool) (piv : K) (a : K) (degrees : Bool) : K :=
  if radMode && !degrees then a * 180 / piv else a

/-- `Plot.addSegment(_a,_length,_pres,_degrees)`: drops the duplicated
trailing angle, normalizes the angle by `(_a + 360) % 360` (JavaScript
remainder), appends angle/pressure/length, recomputes `length` as the sum
of the segment lengths, and pushes the angle a second time. -/
def Plot.addSegment {K : Type*} [LinearOrderedField K] [FloorRing K]
    (radMode : Bool) (piv : K) (p : Plot K)
    (a len pres : K) (degrees : Bool := false) : Plot K :=
  let a₀ := toDegrees radMode piv a degrees
  let angles₀ := if p.angles.length > 0 then p.angles.dropLast else p.angles
  let a₁ := jsMod (a₀ + 360) 360
  let segments := p.segments ++ [len]
  { p with
    angles := (angles₀ ++ [a₁]) ++ [a₁]
    pres := p.pres ++ [pres]
    segments := segments
    length := segments.sum }

/-- `Plot.endPlot(_a,_pres,_degrees)`: replaces the trailing angle with
the final angle (no normalization) and appends the final pressure. -/
def Plot.endPlot {K : Type*} [LinearOrderedField K]
    (radMode : Bool) (piv : K) (p : Plot K)
    (a pres : K) (degrees : Bool := false) : Plot K :=
  let a₀ := toDegrees radMode piv a degrees
  { p with
    angles := p.angles.dropLast ++ [a₀]
    pres := p.pres ++ [pres] }

/-- `Plot.rotate(_a)`: sets the rotation offset (converting from radians
when in radians angle mode). -/
def Plot.rotate {K : Type*} [LinearOrderedField K]
    (radMode : Bool) (piv : K) (p : Plot K) (a : K) : Plot K :=
  { p with dir := if radMode then a * 180 / piv else a }

/-- The `calcIndex` while-loop
`while (d <= _d) {suma = d; d += segments[index+1]; index++}` as a
recursion over the remaining segment list.  When the loop walks past the
last segment, JavaScript adds `undefined` (making `d` equal `NaN`) and
the next test exits; the embedding returns at the `[]` case with the same
final `(index, suma)`. -/
def calcLoop {K : Type*} [LinearOrderedField K]
    (tgt : K) : List K → K → ℤ → K → ℤ × K
  | segs, d, idx, suma =>
    if d ≤ tgt then
      match segs with
      | [] => (idx + 1, d)
      | s :: rest => calcLoop tgt rest (d + s) (idx + 1) d
    else (idx, suma)

/-- `Plot.calcIndex(_d)`: computes the `(index, suma)` pair for a
distance along the plot (starting from `index = -1`, `suma = 0`,
`d = 0`). -/
def Plot.calcIndex {K : Type*} [LinearOrderedField K]
    (p : Plot K) (d : K) : ℤ × K :=
  calcLoop d p.segments 0 (-1) 0

/-- The endpoint-adjustment step inside `Plot.curving`: when the raw
difference of the two bracketing samples exceeds 180, one endpoint is
shifted by 360 (`map1 = -(360-map1)` resp. `map0 = -(360-map0)`). -/
def curvingAdjust {K : Type*} [LinearOrderedField K] (m0 m1 : K) : K × K :=
  if |m1 - m0| > 180 then
    if m1 > m0 then (m0, -(360 - m1)) else (-(360 - m0), m1)
  else (m0, m1)

/-- `Plot.curving(array,_d)`: interpolates between the two bracketing
node samples, using the mutable `(index, suma)` state `st` set by a prior
`calcIndex` call.  `none` models the `NaN` JavaScript produces when
`array[index]` or `segments[index]` is `undefined` (the `map1 undefined`
case is handled by the source itself, falling back to `map0`). -/
def Plot.curving {K : Type*} [LinearOrderedField K] [FloorRing K]
    (p : Plot K) (st : ℤ × K) (arr : List K) (d : K) : Option K :=
  match jsGet arr st.1 with
  | none => none
  | some map0 =>
    let map1 := (jsGet arr (st.1 + 1)).getD map0
    match jsGet p.segments st.1 with
    | none => none
    | some seg =>
      let mm := curvingAdjust map0 map1
      some (Rmap (d - st.2) 0 seg mm.1 mm.2 true)

/-- `Plot.pressure(_d)`: past the total length it returns the last
recorded pressure sample; otherwise it interpolates with `curving`,
using whatever `(index, suma)` state `st` the object currently holds
(the source relies on a preceding `angle` call having run
`calcIndex`). -/
def Plot.pressure {K : Type*} [LinearOrderedField K] [FloorRing K]
    (p : Plot K) (st : ℤ × K) (d : K) : Option K :=
  if d > p.length then jsGet p.pres ((p.pres.length : ℤ) - 1)
  else p.curving st p.pres d

/-- `Plot.angle(_d)`: past the total length it returns the last recorded
angle sample (without adding `dir`); otherwise it runs `calcIndex` and
returns the interpolated (`curve`) or stepped (`segments`) angle plus the
rotation offset `dir`. -/
def Plot.angle {K : Type*} [LinearOrderedField K] [FloorRing K]
    (p : Plot K) (d : K) : Option K :=
  if d > p.length then jsGet p.angles ((p.angles.length : ℤ) - 1)
  else
    let st := p.calcIndex d
    match p.type with
    | .curve => (p.curving st p.angles d).map (· + p.dir)
    | .segments => (jsGet p.angles st.1).map (· + p.dir)

/-!
### Sequences of `addSegment` / `endPlot` calls

Used to state invariants over every plot reachable through the public
builder API. -/

/-- One builder call on a `Plot`. -/
inductive PlotOp (K : Type*) where
  | add (a len pres : K) (degrees : Bool)
  | fin (a pres : K) (degrees : Bool)

/-- Apply one builder call. -/
def PlotOp.apply {K : Type*} [LinearOrderedField K] [FloorRing K]
    (radMode : Bool) (piv : K) (p : Plot K) : PlotOp K → Plot K
  | .add a len pres degrees => p.addSegment radMode piv a len pres degrees
  | .fin a pres degrees => p.endPlot radMode piv a pres degrees

/-- The angle argument of a builder call after angle-mode conversion. -/
def PlotOp.effAngle {K : Type*} [LinearOrderedField K]
    (radMode : Bool) (piv : K) : PlotOp K → K
  | .add a _ _ degrees => toDegrees radMode piv a degrees
  | .fin a _ degrees => toDegrees radMode piv a degrees

/-- Run a sequence of builder calls from a fresh plot. -/
def Plot.build {K : Type*} [LinearOrderedField K] [FloorRing K]
    (radMode : Bool) (piv : K) (t : PlotType) (ops : List (PlotOp K)) : Plot K :=
  ops.foldl (PlotOp.apply radMode piv) (Plot.init t)

/-!
## Fill state: the bleed setter

`setBleed(_i)` stores `F.b = _i > 0.5 ? 0.5 : _i`; the embedding returns
the stored value. -/

/-- `setBleed(_i)`: the new value of the fill state's bleed factor
`F.b`. -/
def setBleed {K : Type*} [LinearOrderedField K] (i : K) : K :=
  if i > 1 / 2 then 1 / 2 else i

/-!
## Concrete plots used as inputs for witnesses and counterexamples
-/

/-- A curve plot whose samples `350` and `10` straddle the `0/360`
boundary, built through the public builder calls (degree flags set). -/
def plotWrap : Plot ℚ :=
  Plot.build false 0 .curve [.add 350 10 1 true, .fin 10 1 true]

/-- A curve plot finalized through `endPlot` with the out-of-range angle
argument `700`. -/
def plotLongway : Plot ℚ :=
  Plot.build false 0 .curve [.add 0 10 1 true, .fin 700 1 true]

/-- A curve plot finalized through `endPlot` with the out-of-range angle
argument `700` (input for the stored-angle normalization claim). -/
def plotEndRaw : Plot ℚ :=
  Plot.build false 0 .curve [.add 0 10 1 true, .fin 700 1 true]

/-- A finalized two-node plot with distinct pressure and angle samples. -/
def plotFinal : Plot ℚ :=
  Plot.build false 0 .curve [.add 40 10 2 true, .fin 77 3 true]

/-!
## Polygon and segment intersection

`_intersectLines(seg1Start, seg1End, seg2Start, seg2End, ext)` computes
the meeting point of the two carrier lines, returning `false` (embedded
as `none`) for degenerate segments or parallel lines; without segment
extension it also rejects parameters `ub` outside `[0, 1]` (note the
source only bounds-checks the second segment's parameter).  `Polygon`
keeps its raw vertex array and derived side list; the source's
memoization cache stores and returns the same pure result keyed by the
exact query endpoints, so it is semantically transparent and not
modelled. -/

/-- `_intersectLines` over a field; points are `(x, y)` pairs. -/
def intersectLines {K : Type*} [LinearOrderedField K]
    (s1s s1e s2s s2e : K × K) (ext : Bool) : Option (K × K) :=
  if s1s = s1e ∨ s2s = s2e then none
  else
    let dx1 := s1e.1 - s1s.1
    let dy1 := s1e.2 - s1s.2
    let dx2 := s2e.1 - s2s.1
    let dy2 := s2e.2 - s2s.2
    let denom := dy2 * dx1 - dx2 * dy1
    if denom = 0 then none
    else
      let ua := (dx2 * (s1s.2 - s2s.2) - dy2 * (s1s.1 - s2s.1)) / denom
      let ub := (dx1 * (s1s.2 - s2s.2) - dy1 * (s1s.1 - s2s.1)) / denom
      if ext = false ∧ (ub < 0 ∨ ub > 1) then none
      else some (s1s.1 + ua * dx1, s1s.2 + ua * dy1)

/-- The `Polygon` object: the raw vertex array (vertices are already
modelled as pairs, so the source's array-to-object mapping is the
identity here). -/
structure Polygon (K : Type*) where
  a : List (K × K)

/-- `this.sides`: pairs each vertex with its cyclic successor
(`arr[(i+1) % arr.length]`). -/
def Polygon.sides {K : Type*} (pg : Polygon K) :
    List ((K × K) × (K × K)) :=
  pg.a.zip (pg.a.rotate 1)

/-- `Polygon.intersect(line)`: tests the query segment against every
side and collects the intersection points. -/
def Polygon.intersect {K : Type*} [LinearOrderedField K]
    (pg : Polygon K) (p1 p2 : K × K) : List (K × K) :=
  pg.sides.filterMap (fun s => intersectLines p1 p2 s.1 s.2 false)

/-!
## Position and flow-field movement

The flow-field state (`FF`), the renderer size (`_r.width/height`) and
the canvas translation (`_trans()`) are bundled into an environment
record.  The grid of the active field is modelled as a total function on
indices; the source only reads cells after the `isIn` bounds check.  The
quarter-degree trigonometric lookup tables `R.cos`/`R.sin` enter as the
environment's `cosF`/`sinF` (instantiated over `ℝ` with the table
embedding below). -/

/-- Ambient state for `Position` methods: the flow-field record `FF`,
the canvas translation `_trans()` and the renderer dimensions. -/
structure FFEnv (K : Type*) where
  isActive : Bool
  flowField : ℤ → ℤ → K
  numColumns : ℤ
  numRows : ℤ
  res : K
  leftX : K
  topY : K
  transX : K
  transY : K
  width : K
  height : K
  cosF : K → K
  sinF : K → K

/-- The `Position` object state: coordinates, derived flow-field cell
indices, and the cumulative `plotted` distance. -/
structure Pos (K : Type*) where
  x : K
  y : K
  columnIndex : ℤ
  rowIndex : ℤ
  plotted : K
deriving DecidableEq

/-- `Position.update(x,y)`: sets the coordinates and, when a field is
active, recomputes the cell indices by rounding the offsets divided by
the resolution. -/
def Pos.update {K : Type*} [LinearOrderedField K] [FloorRing K]
    (e : FFEnv K) (p : Pos K) (x y : K) : Pos K :=
  if e.isActive then
    let xOffset := x - e.leftX + e.transX
    let yOffset := y - e.topY + e.transY
    { p with
        x := x
        y := y
        columnIndex := jsRound (xOffset / e.res)
        rowIndex := jsRound (yOffset / e.res) }
  else { p with x := x, y := y }

/-- The `Position` constructor: `update(x, y)` then `plotted = 0` (the
cell indices start out `undefined` when no field is active; the embedding
uses `0`, which the source never reads in that case). -/
def Pos.make {K : Type*} [LinearOrderedField K] [FloorRing K]
    (e : FFEnv K) (x y : K) : Pos K :=
  { Pos.update e ⟨x, y, 0, 0, 0⟩ x y with plotted := 0 }

/-- `Position.isInCanvas()`: the coordinates lie within `±0.55` of the
renderer size, shifted by the canvas translation. -/
def Pos.isInCanvas {K : Type*} [LinearOrderedField K]
    (e : FFEnv K) (p : Pos K) : Prop :=
  (-(11/20 * e.width) - e.transX ≤ p.x ∧ p.x ≤ 11/20 * e.width - e.transX) ∧
  (-(11/20 * e.height) - e.transY ≤ p.y ∧ p.y ≤ 11/20 * e.height - e.transY)

instance {K : Type*} [LinearOrderedField K] (e : FFEnv K) (p : Pos K) :
    Decidable (p.isInCanvas e) := by
  unfold Pos.isInCanvas
  infer_instance

/-- `Position.isIn()`: inside the active field's grid bounds when a
field is active, otherwise inside the canvas. -/
def Pos.isIn {K : Type*} [LinearOrderedField K]
    (e : FFEnv K) (p : Pos K) : Prop :=
  if e.isActive then
    (0 ≤ p.columnIndex ∧ 0 ≤ p.rowIndex) ∧
    (p.columnIndex < e.numColumns ∧ p.rowIndex < e.numRows)
  else p.isInCanvas e

instance {K : Type*} [LinearOrderedField K] (e : FFEnv K) (p : Pos K) :
    Decidable (p.isIn e) := by
  unfold Pos.isIn
  infer_instance

/-- `Position.angle()`: the field cell value at the current indices when
inside an active field, `0` otherwise. -/
def Pos.angle {K : Type*} [LinearOrderedField K]
    (e : FFEnv K) (p : Pos K) : K :=
  if p.isIn e ∧ e.isActive then e.flowField p.columnIndex p.rowIndex else 0

/-- One iteration of the `moveTo` loop: with flow the direction pair is
recomputed from the field angle, otherwise the precomputed pair `ab` is
used; `plotted` grows by the step length and the coordinates advance. -/
def Pos.moveStep {K : Type*} [LinearOrderedField K] [FloorRing K]
    (e : FFEnv K) (dir step : K) (isFlow : Bool) (ab : K × K)
    (p : Pos K) : Pos K :=
  let ab' := if isFlow then
    (e.cosF (p.angle e - dir), e.sinF (p.angle e - dir)) else ab
  Pos.update e { p with plotted := p.plotted + step }
    (p.x + step * ab'.1) (p.y + step * ab'.2)

/-- `Position.moveTo(_length,_dir,_step_length,isFlow)`: inside the
bounds, iterate the step `⌈length/step⌉` times (the JavaScript loop
`for (i = 0; i < length/step; i++)`); outside, only advance `plotted` by
a single step length. -/
def Pos.moveTo {K : Type*} [LinearOrderedField K] [FloorRing K]
    (e : FFEnv K) (p : Pos K) (len dir step : K) (isFlow : Bool) : Pos K :=
  if p.isIn e then
    (Pos.moveStep e dir step isFlow (e.cosF (-dir), e.sinF (-dir)))^[
      (Int.ceil (len / step)).toNat] p
  else { p with plotted := p.plotted + step }

/-- The `plotTo` loop body: sample the plot angle at the current
`plotted` distance, step along `cos/sin(fieldAngle − plotAngle)` and
advance `plotted` by `step / scale`.  `none` models the `NaN` poisoning
when the plot angle read is `undefined`. -/
def Pos.plotToLoop {K : Type*} [LinearOrderedField K] [FloorRing K]
    (e : FFEnv K) (pl : Plot K) (step invScale : K) :
    ℕ → Pos K → Option (Pos K)
  | 0, p => some p
  | n + 1, p =>
    match pl.angle p.plotted with
    | none => none
    | some plotAngle =>
      Pos.plotToLoop e pl step invScale n
        (Pos.update e { p with plotted := p.plotted + step * invScale }
          (p.x + step * e.cosF (p.angle e - plotAngle))
          (p.y + step * e.sinF (p.angle e - plotAngle)))

/-- `Position.plotTo(_plot,_length,_step_length,_scale)`.  The source's
outside-bounds branch executes `this.plotted += _step_length / scale`,
where `scale` is an undeclared identifier (the parameter is `_scale`):
it resolves to the global `scale` binding.  `globalScale` models the
numeric value of that binding — `none` when it is not a number (in a p5
global-mode page it is the p5 `scale` function, so the division yields
`NaN`; without such a global the lookup throws a `ReferenceError`). -/
def Pos.plotTo {K : Type*} [LinearOrderedField K] [FloorRing K]
    (e : FFEnv K) (globalScale : Option K) (p : Pos K) (pl : Plot K)
    (len step scl : K) : Option (Pos K) :=
  if p.isIn e then
    Pos.plotToLoop e pl step (1 / scl) (Int.ceil (len / step)).toNat p
  else
    globalScale.map (fun g => { p with plotted := p.plotted + step / g })

/-- The sequence of `Position` states at which `B.draw` places its tips
for a straight or flow-guided stroke: `total_steps = round(length /
spacing)` tips, each placed before a `moveTo(spacing, dir, spacing,
flow)` advance from a fresh `Position(x, y)` (this is
`B.initializeDrawingState` followed by the non-plot branch of
`B.draw`). -/
def drawTipPositions {K : Type*} [LinearOrderedField K] [FloorRing K]
    (e : FFEnv K) (x y len dir step : K) (isFlow : Bool) : List (Pos K) :=
  (List.range (jsRound (len / step)).toNat).map
    (fun i => (fun q => q.moveTo e step dir step isFlow)^[i] (Pos.make e x y))

/-!
## Real-valued primitives

`dist`, `atan2`-based `_calculateAngle`, the quarter-degree trigonometric
lookup tables of `R`, and the angle-mode-aware `asin`, all over `ℝ`. -/

/-- JavaScript `Math.atan2(y, x)`: the argument of the complex number
`x + y·i`, in `(-π, π]`. -/
noncomputable def atan2R (y x : ℝ) : ℝ :=
  Complex.arg ⟨x, y⟩

/-- `_calculateAngle(x1,y1,x2,y2)`: `atan2(-(y2-y1), x2-x1)` converted
to degrees and normalized by `(deg % 360 + 360) % 360` (JavaScript
remainders). -/
noncomputable def calculateAngle (x1 y1 x2 y2 : ℝ) : ℝ :=
  let angleRadians := atan2R (-(y2 - y1)) (x2 - x1)
  let angleDegrees := angleRadians * (180 / Real.pi)
  jsMod (jsMod angleDegrees 360 + 360) 360

/-- p5 `dist(x1,y1,x2,y2)`: the Euclidean distance. -/
noncomputable def distR (x1 y1 x2 y2 : ℝ) : ℝ :=
  Real.sqrt ((x2 - x1) ^ 2 + (y2 - y1) ^ 2)

/-- `R.cos(angle)`: lookup in the precalculated table
`c[i] = cos(i · 2π/1440)` at index `⌊4 · ((angle % 360 + 360) % 360)⌋`. -/
noncomputable def RcosT (a : ℝ) : ℝ :=
  Real.cos ((⌊4 * jsMod (jsMod a 360 + 360) 360⌋ : ℤ) * (2 * Real.pi / 1440))

/-- `R.sin(angle)`: lookup in the precalculated table
`s[i] = sin(i · 2π/1440)` at index `⌊4 · ((angle % 360 + 360) % 360)⌋`. -/
noncomputable def RsinT (a : ℝ) : ℝ :=
  Real.sin ((⌊4 * jsMod (jsMod a 360 + 360) 360⌋ : ℤ) * (2 * Real.pi / 1440))

/-- p5 `asin`: radians or degrees according to the angle mode. -/
noncomputable def jsAsin (radMode : Bool) (x : ℝ) : ℝ :=
  if radMode then Real.arcsin x else Real.arcsin x * 180 / Real.pi

/-- `B.flowLine(x,y,length,dir)`'s tip-position sequence: the direction
is converted from radians when in radians angle mode, then the stroke is
drawn through `B.draw` with flow enabled. -/
def flowLineTipPositions {K : Type*} [LinearOrderedField K] [FloorRing K]
    (radMode : Bool) (piv : K) (e : FFEnv K)
    (x y len dir step : K) : List (Pos K) :=
  drawTipPositions e x y len (toDegrees radMode piv dir false) step true

/-- `B.line(x1,y1,x2,y2)`'s tip-position sequence: length and direction
are derived from the endpoints by `dist` and `_calculateAngle`, then the
stroke is drawn through `B.draw` without flow. -/
noncomputable def lineTipPositions (e : FFEnv ℝ)
    (x1 y1 x2 y2 step : ℝ) : List (Pos ℝ) :=
  drawTipPositions e x1 y1 (distR x1 y1 x2 y2)
    (calculateAngle x1 y1 x2 y2) step false

/-- A flow-field environment with no active field and a 100×100 canvas;
the trigonometric lookups are placeholders, never evaluated by the
outside-bounds branches under scrutiny. -/
def envPlainQ : FFEnv ℚ :=
  { isActive := false, flowField := fun _ _ => 0, numColumns := 0,
    numRows := 0, res := 1, leftX := 0, topY := 0, transX := 0,
    transY := 0, width := 100, height := 100, cosF := fun _ => 1,
    sinF := fun _ => 0 }

/-- A position far outside the canvas of `envPlainQ`. -/
def posFarQ : Pos ℚ :=
  Pos.make envPlainQ 1000 1000

/-- A uniformly-zero active flow field over `ℝ`, with the genuine
quarter-degree trigonometric lookup tables. -/
noncomputable def envUniformZeroR : FFEnv ℝ :=
  { isActive := true, flowField := fun _ _ => 0, numColumns := 20,
    numRows := 20, res := 10, leftX := -100, topY := -100, transX := 0,
    transY := 0, width := 200, height := 200, cosF := RcosT,
    sinF := RsinT }

/-!
## FillPolygon and `grow`

`p5.Vector` helpers over `ℝ`, the per-iteration random draws of `grow`
as an explicit stream, and the `grow` transform itself.  The source
reads `this.v[i]` / `this.m[i]` only for `i < verticesToProcess`; when a
growth factor above `1` would drive the index past the array end
(never done by the library itself), the embedding totalises the read
with a default instead of JavaScript's `undefined`. -/

/-- `p5.Vector.lerp(a, b, amt)` componentwise. -/
def vlerp (a b : ℝ × ℝ) (amt : ℝ) : ℝ × ℝ :=
  (a.1 + (b.1 - a.1) * amt, a.2 + (b.2 - a.2) * amt)

/-- `p5.Vector.sub(a, b)`. -/
def vsub (a b : ℝ × ℝ) : ℝ × ℝ :=
  (a.1 - b.1, a.2 - b.2)

/-- `p5.Vector.add(a, b)`. -/
def vadd (a b : ℝ × ℝ) : ℝ × ℝ :=
  (a.1 + b.1, a.2 + b.2)

/-- `v.mult(s)`. -/
def vmult (a : ℝ × ℝ) (s : ℝ) : ℝ × ℝ :=
  (a.1 * s, a.2 * s)

/-- `v.mag()`. -/
noncomputable def vmag (a : ℝ × ℝ) : ℝ :=
  Real.sqrt (a.1 ^ 2 + a.2 ^ 2)

/-- `v.normalize()`: the zero vector is left unchanged (p5 guards the
division by a zero magnitude). -/
noncomputable def vnormalize (a : ℝ × ℝ) : ℝ × ℝ :=
  if vmag a = 0 then a else (a.1 / vmag a, a.2 / vmag a)

/-- `v.rotate(angle)`: p5 interprets the angle according to the current
angle mode (degrees are converted to radians internally). -/
noncomputable def vrotate (radMode : Bool) (a : ℝ × ℝ) (ang : ℝ) : ℝ × ℝ :=
  let r := if radMode then ang else ang * Real.pi / 180
  (a.1 * Real.cos r - a.2 * Real.sin r, a.1 * Real.sin r + a.2 * Real.cos r)

/-- The watercolor fill polygon: vertices, per-vertex bleed modifiers,
centroid, and the characteristic `size = |midP - v[0]|` computed by the
constructor (`0` instead of `NaN` for an empty vertex list). -/
structure FillPolygon where
  v : List (ℝ × ℝ)
  m : List ℝ
  midP : ℝ × ℝ
  size : ℝ

/-- The `FillPolygon` constructor. -/
noncomputable def FillPolygon.make (v : List (ℝ × ℝ)) (m : List ℝ)
    (center : ℝ × ℝ) : FillPolygon :=
  { v := v, m := m, midP := center,
    size := vmag (vsub center (v.headD (0, 0))) }

/-- The stochastic draws one `grow` iteration consumes, in source
order: the two `changeModifier` Gaussians, the lerp amount, the rotation
Gaussian, and the two magnitude factors. -/
structure GrowRand where
  gMod1 : ℝ
  gLerp : ℝ
  gRot : ℝ
  gMag : ℝ
  uMag : ℝ
  gMod2 : ℝ

/-- `FillPolygon.grow(growthFactor, degrow)`: for each processed vertex
(all of them unless `growthFactor ≥ 0.2`, which processes only
`⌊growthFactor · n⌋`), push the current vertex and a new vertex offset
from a random point of the edge along the edge direction rotated by
roughly `-90°`, scaled by the per-vertex modifier (negated and halved
when degrowing); returns a new `FillPolygon` with the same centroid. -/
noncomputable def FillPolygon.grow (radMode : Bool) (rand : ℕ → GrowRand)
    (fp : FillPolygon) (growthFactor : ℝ) (degrow : Bool) : FillPolygon :=
  let verticesToProcess :=
    if growthFactor ≥ 1/5 then (⌊growthFactor * fp.v.length⌋).toNat
    else fp.v.length
  let rotationFactor : ℝ := if radMode then Real.pi / 180 else 1
  let pieces := (List.range verticesToProcess).map (fun i =>
    let currentVertex := fp.v.getD i (0, 0)
    let nextVertex := fp.v.getD ((i + 1) % verticesToProcess) (0, 0)
    let r := rand i
    let mod0 : ℝ := if growthFactor = 1/10 then 3/4 else fp.m.getD i 0
    let md : ℝ := if degrow then mod0 * (-(1/2)) else mod0
    let newVertex := vlerp currentVertex nextVertex
      (Rconstrain r.gLerp (1/10) (9/10))
    let side := vsub nextVertex currentVertex
    let dir0 := vnormalize side
    let rotationDegrees := -90 + r.gRot * 45
    let dir1 := vrotate radMode dir0 (rotationDegrees * rotationFactor)
    let dir2 := vmult dir1 (r.gMag * r.uMag * vmag side * md)
    ([currentVertex, vadd newVertex dir2],
     [md + (r.gMod1 - 1/2) * (1/10), md + (r.gMod2 - 1/2) * (1/10)]))
  FillPolygon.make (pieces.flatMap Prod.fst) (pieces.flatMap Prod.snd)
    fp.midP

/-!
## Spline construction

The `Spline` constructor walks consecutive point pairs.  With zero
curvature it appends one segment per pair (bearing from
`_calculateAngle`, length from `dist`) and finalizes on the last pair;
with positive curvature it splices rounded transitions at interior
points (shrunken straight parts plus an arc segment whose radius comes
from intersecting the two offset tangent lines).  `none` models the
`TypeError` the source would raise reading `.x` of a `false`
intersection result.  Points carry `(x, y, pressure)`; the source leaves
the pressure `undefined` when absent, which the curvature-zero branch
never reads (it passes the literal `1`). -/

/-- The per-iteration loop of the `Spline` constructor, recursing over
the remaining points; `done` is the running arc-offset accumulator. -/
noncomputable def splineLoop (radMode : Bool) (piv cur : ℝ) :
    List (ℝ × ℝ × ℝ) → ℝ → Plot ℝ → Option (Plot ℝ)
  | p1 :: p2 :: p3 :: rest, done, p =>
    if cur > 0 then
      let d1 := distR p1.1 p1.2.1 p2.1 p2.2.1
      let d2 := distR p2.1 p2.2.1 p3.1 p3.2.1
      let a1 := calculateAngle p1.1 p1.2.1 p2.1 p2.2.1
      let a2 := calculateAngle p2.1 p2.2.1 p3.1 p3.2.1
      let dd := cur * min (min d1 d2) (1/2 * min d1 d2)
      let dmax := max d1 d2
      let s1 := d1 - dd
      let s2 := d2 - dd
      if ⌊a1⌋ = ⌊a2⌋ then
        let pA := (p.addSegment radMode piv a1 s1 p1.2.2 true).addSegment
          radMode piv a2 d2 p2.2.2 true
        let pB := if rest = [] then pA.endPlot radMode piv a2 p2.2.2 true
          else pA
        splineLoop radMode piv cur (p2 :: p3 :: rest) done pB
      else
        let point1 := (p2.1 - dd * RcosT (-a1), p2.2.1 - dd * RsinT (-a1))
        let point2 := (point1.1 + dmax * RcosT (-a1 + 90),
          point1.2 + dmax * RsinT (-a1 + 90))
        let point3 := (p2.1 + dd * RcosT (-a2), p2.2.1 + dd * RsinT (-a2))
        let point4 := (point3.1 + dmax * RcosT (-a2 + 90),
          point3.2 + dmax * RsinT (-a2 + 90))
        match intersectLines point1 point2 point3 point4 true with
        | none => none
        | some q =>
          let radius := distR point1.1 point1.2 q.1 q.2
          let disti := distR point1.1 point1.2 point3.1 point3.2 / 2
          let a3 := 2 * jsAsin radMode (disti / radius)
          let s3 := 2 * Real.pi * radius * a3 / 360
          let pA := ((p.addSegment radMode piv a1 (s1 - done) p1.2.2
            true).addSegment radMode piv a1 s3 p1.2.2 true).addSegment
            radMode piv a2 (if rest = [] then s2 else 0) p2.2.2 true
          let pB := if rest = [] then pA.endPlot radMode piv a2 p2.2.2 true
            else pA
          splineLoop radMode piv cur (p2 :: p3 :: rest) dd pB
    else if cur = 0 then
      let d := distR p1.1 p1.2.1 p2.1 p2.2.1
      let a := calculateAngle p1.1 p1.2.1 p2.1 p2.2.1
      splineLoop radMode piv cur (p2 :: p3 :: rest) done
        (p.addSegment radMode piv a d 1 true)
    else splineLoop radMode piv cur (p2 :: p3 :: rest) done p
  | [p1, p2], _, p =>
    if cur > 0 then some p
    else if cur = 0 then
      let d := distR p1.1 p1.2.1 p2.1 p2.2.1
      let a := calculateAngle p1.1 p1.2.1 p2.1 p2.2.1
      some ((p.addSegment radMode piv a d 1 true).endPlot radMode piv a 1
        true)
    else some p
  | _, _, p => some p

/-- The `Spline` constructor: the plot type is `segments` exactly for
zero curvature, the origin is the first point, and the loop above builds
`this.p`. -/
noncomputable def Spline.build (radMode : Bool) (piv : ℝ)
    (points : List (ℝ × ℝ × ℝ)) (cur : ℝ) : Option (Plot ℝ) :=
  let t := if cur = 0 then PlotType.segments else PlotType.curve
  match points with
  | [] => some (Plot.init t)
  | q :: qs =>
    splineLoop radMode piv cur (q :: qs) 0
      { Plot.init t with origin := some (q.1, q.2.1) }

/-! ## Theorems -/
section Basic

variable {K : Type*} [LinearOrderedField K] [FloorRing K]

theorem jsMod_nonneg_lt (a : K) (h : 0 ≤ a) (m : K) (hm : 0 < m) :
    0 ≤ jsMod a m ∧ jsMod a m < m := by
  have hdiv : 0 ≤ a / m := div_nonneg h hm.le
  have ht : jsTrunc (a / m) = ⌊a / m⌋ := by simp [jsTrunc, hdiv]
  constructor
  · have := Int.sub_one_lt_floor (a / m)
    have hfl : (⌊a / m⌋ : K) ≤ a / m := Int.floor_le _
    have : (⌊a / m⌋ : K) * m ≤ a := by
      calc (⌊a / m⌋ : K) * m ≤ (a / m) * m := by nlinarith
        _ = a := div_mul_cancel₀ a hm.ne'
    simp only [jsMod, ht]
    nlinarith
  · have hfl : a / m < ⌊a / m⌋ + 1 := Int.lt_floor_add_one _
    have : a < (⌊a / m⌋ + 1) * m := by
      have := (div_lt_iff₀ hm).mp hfl
      linarith
    simp only [jsMod, ht]
    nlinarith

end Basic

/-!
## Supporting lemmas
-/

section Lemmas

variable {K : Type*} [LinearOrderedField K] [FloorRing K]

theorem jsGet_mem {α : Type*} {l : List α} {i : ℤ} {x : α}
    (h : jsGet l i = some x) : x ∈ l := by
  unfold jsGet at h
  split at h
  · rw [List.get?_eq_getElem?] at h
    exact List.getElem?_mem h
  · exact absurd h (by simp)

theorem jsGet_last {α : Type*} (l : List α) :
    jsGet l ((l.length : ℤ) - 1) = l.getLast? := by
  cases l with
  | nil => simp [jsGet]
  | cons y ys =>
    have h0 : (0 : ℤ) ≤ ((y :: ys).length : ℤ) - 1 := by
      simp
    have htn : (((y :: ys).length : ℤ) - 1).toNat = (y :: ys).length - 1 := by
      omega
    rw [jsGet, if_pos h0, htn, List.get?_eq_getElem?,
      ← List.getLast?_eq_getElem?]

theorem Rconstrain_bounds {n low high : K} (h : low ≤ high) :
    low ≤ Rconstrain n low high ∧ Rconstrain n low high ≤ high := by
  unfold Rconstrain
  constructor
  · exact le_max_right _ _
  · exact max_le (min_le_right _ _) h

theorem Rmap_bounds (v a b c d : K) :
    min c d ≤ Rmap v a b c d true ∧ Rmap v a b c d true ≤ max c d := by
  unfold Rmap
  simp only [Bool.not_true]
  by_cases hcd : c < d
  · rw [if_neg (by simp), if_pos hcd]
    have := Rconstrain_bounds (n := c + (v - a) / (b - a) * (d - c)) hcd.le
    constructor
    · exact le_trans (min_le_left c d) this.1
    · exact le_trans this.2 (le_max_right c d)
  · rw [if_neg (by simp), if_neg hcd]
    have hdc : d ≤ c := not_lt.mp hcd
    have := Rconstrain_bounds (n := c + (v - a) / (b - a) * (d - c)) hdc
    constructor
    · exact le_trans (min_le_right c d) this.1
    · exact le_trans this.2 (le_max_left c d)

theorem posMod_of_nonneg_lt {x : K} (h0 : 0 ≤ x) (h1 : x < 360) :
    posMod x 360 = x := by
  have : ⌊x / 360⌋ = 0 := by
    rw [Int.floor_eq_zero_iff]
    constructor
    · positivity
    · rw [div_lt_one (by norm_num)]; linarith
  simp [posMod, this]

theorem posMod_of_neg_ge {x : K} (h0 : -360 ≤ x) (h1 : x < 0) :
    posMod x 360 = x + 360 := by
  have : ⌊x / 360⌋ = -1 := by
    have h2 : ((-1 : ℤ) : K) ≤ x / 360 := by
      rw [Int.cast_neg, Int.cast_one, neg_le, ← neg_div]
      rw [div_le_one (by norm_num : (0:K) < 360)]
      linarith
    have h3 : x / 360 < (-1 : ℤ) + 1 := by
      push_cast
      rw [div_lt_iff₀ (by norm_num : (0:K) < 360)]
      linarith
    exact Int.floor_eq_iff.mpr ⟨h2, h3⟩
  rw [posMod, this]
  push_cast
  ring

/-- For samples in `[0, 360)`, the circular distance is
`min |a - b| (360 - |a - b|)`. -/
theorem circDist_of_range {a b : K} (ha : 0 ≤ a ∧ a < 360)
    (hb : 0 ≤ b ∧ b < 360) :
    circDist a b = min |a - b| (360 - |a - b|) := by
  rcases le_or_lt b a with hab | hab
  · have h1 : 0 ≤ a - b := by linarith
    have h2 : a - b < 360 := by linarith
    rw [circDist, posMod_of_nonneg_lt h1 h2, abs_of_nonneg h1]
  · have h1 : -360 ≤ a - b := by linarith
    have h2 : a - b < 0 := by linarith
    rw [circDist, posMod_of_neg_ge h1 h2, abs_of_neg h2]
    rw [show a - b + 360 = 360 - -(a - b) by ring]
    rw [min_comm]
    congr 1
    ring

/-- Core shortest-path property of the `curving` endpoint adjustment:
for raw samples in `[0, 360)` the adjusted endpoints are the original
samples up to a single `-360` shift, and their gap is exactly the
circular distance of the samples (in particular at most `180`). -/
theorem curvingAdjust_shortest {a b : K} (ha : 0 ≤ a ∧ a < 360)
    (hb : 0 ≤ b ∧ b < 360) :
    ((curvingAdjust a b).1 = a ∨ (curvingAdjust a b).1 = a - 360) ∧
    ((curvingAdjust a b).2 = b ∨ (curvingAdjust a b).2 = b - 360) ∧
    |(curvingAdjust a b).2 - (curvingAdjust a b).1| = circDist a b ∧
    |(curvingAdjust a b).2 - (curvingAdjust a b).1| ≤ 180 := by
  obtain ⟨ha0, ha1⟩ := ha
  obtain ⟨hb0, hb1⟩ := hb
  have hcd : circDist a b = min |a - b| (360 - |a - b|) :=
    circDist_of_range ⟨ha0, ha1⟩ ⟨hb0, hb1⟩
  unfold curvingAdjust
  by_cases h1 : |b - a| > 180
  · rw [if_pos h1]
    by_cases h2 : b > a
    · rw [if_pos h2]
      have hba : b - a > 180 := by
        rwa [abs_of_pos (by linarith : (0:K) < b - a)] at h1
      have habs : |a - b| = b - a := by
        rw [abs_of_neg (by linarith : a - b < 0)]; ring
      have habs2 : |(a, -(360 - b)).2 - (a, -(360 - b)).1| = 360 + a - b := by
        show |(-(360 - b)) - a| = 360 + a - b
        rw [abs_of_neg (by linarith : (-(360 - b)) - a < 0)]; ring
      refine ⟨Or.inl rfl, Or.inr (by show -(360 - b) = b - 360; ring), ?_, ?_⟩
      · rw [habs2, hcd, habs, min_eq_right (by linarith)]
        ring
      · rw [habs2]; linarith
    · rw [if_neg h2]
      have hab0 : a - b > 180 := by
        have : ¬ (0:K) < b - a := fun hc => h2 (by linarith)
        rw [abs_of_nonpos (by linarith : b - a ≤ 0)] at h1
        linarith
      have habs : |a - b| = a - b := abs_of_pos (by linarith)
      have habs2 : |(-(360 - a), b).2 - (-(360 - a), b).1| = 360 - a + b := by
        show |b - (-(360 - a))| = 360 - a + b
        rw [abs_of_pos (by linarith : (0:K) < b - (-(360 - a)))]; ring
      refine ⟨Or.inr (by show -(360 - a) = a - 360; ring), Or.inl rfl, ?_, ?_⟩
      · rw [habs2, hcd, habs, min_eq_right (by linarith)]
        ring
      · rw [habs2]; linarith
  · rw [if_neg h1]
    have h1' : |b - a| ≤ 180 := not_lt.mp h1
    have habs : |(a, b).2 - (a, b).1| = |a - b| := by
      show |b - a| = |a - b|
      rw [abs_sub_comm]
    refine ⟨Or.inl rfl, Or.inl rfl, ?_, ?_⟩
    · rw [habs, hcd, min_eq_left ?_]
      rw [abs_sub_comm a b]
      linarith
    · rw [habs, abs_sub_comm a b]
      exact h1'

end Lemmas

section PlotInvariants

variable {K : Type*} [LinearOrderedField K] [FloorRing K]

/-- Every angle of a plot after `addSegment` lies in `[0, 360)` provided
the interior angles already did and the (converted) angle argument is at
least `-360` (so the JavaScript remainder `(a + 360) % 360` is taken of a
nonnegative number). -/
theorem addSegment_angles_range (radMode : Bool) (piv : K) (p : Plot K)
    (a len pres : K) (degrees : Bool)
    (hinv : ∀ x ∈ p.angles.dropLast, 0 ≤ x ∧ x < 360)
    (ha : -360 ≤ toDegrees radMode piv a degrees) :
    ∀ x ∈ (p.addSegment radMode piv a len pres degrees).angles,
      0 ≤ x ∧ x < 360 := by
  intro x hx
  have hnorm : 0 ≤ jsMod (toDegrees radMode piv a degrees + 360) 360 ∧
      jsMod (toDegrees radMode piv a degrees + 360) 360 < 360 :=
    jsMod_nonneg_lt _ (by linarith) 360 (by norm_num)
  simp only [Plot.addSegment, List.append_assoc, List.mem_append,
    List.mem_singleton] at hx
  rcases hx with hx | hx
  · by_cases hlen : p.angles.length > 0
    · rw [if_pos hlen] at hx
      exact hinv x hx
    · rw [if_neg hlen] at hx
      have : p.angles = [] := List.length_eq_zero.mp (by omega)
      rw [this] at hx
      exact absurd hx (by simp)
  · rcases hx with hx | hx <;> · rw [hx]; exact hnorm

/-- `endPlot` keeps every non-final angle in `[0, 360)`: it only replaces
the trailing sample (with an unnormalized value). -/
theorem endPlot_angles_dropLast_range (radMode : Bool) (piv : K)
    (p : Plot K) (a pres : K) (degrees : Bool)
    (hinv : ∀ x ∈ p.angles.dropLast, 0 ≤ x ∧ x < 360) :
    ∀ x ∈ (p.endPlot radMode piv a pres degrees).angles.dropLast,
      0 ≤ x ∧ x < 360 := by
  intro x hx
  simp only [Plot.endPlot, List.dropLast_concat] at hx
  exact hinv x hx

end PlotInvariants

section EvalHelpers

variable {K : Type*} [LinearOrderedField K] [FloorRing K]

/-- Evaluation rule for the JavaScript remainder on nonnegative
dividends, used to compute `jsMod` at concrete inputs. -/
theorem jsMod_eq_of (a b r : K) (n : ℤ) (hb : 0 < b) (ha : 0 ≤ a)
    (h1 : (n : K) * b ≤ a) (h2 : a < ((n : K) + 1) * b)
    (hr : a - b * n = r) : jsMod a b = r := by
  have hd0 : 0 ≤ a / b := div_nonneg ha hb.le
  have hfl : ⌊a / b⌋ = n := by
    rw [Int.floor_eq_iff]
    constructor
    · rw [le_div_iff₀ hb]; exact h1
    · rw [div_lt_iff₀ hb]; push_cast; linarith
  rw [jsMod, jsTrunc, if_pos hd0, hfl, hr]

/-- Evaluation rule for the JavaScript remainder on negative dividends
(the result keeps the dividend's sign). -/
theorem jsMod_eq_of_neg (a b r : K) (n : ℤ) (hb : 0 < b) (ha : a < 0)
    (h1 : a ≤ (n : K) * b) (h2 : ((n : K) - 1) * b < a)
    (hr : a - b * n = r) : jsMod a b = r := by
  have hd0 : ¬ 0 ≤ a / b := not_le.mpr (div_neg_of_neg_of_pos ha hb)
  have hfl : ⌊-(a / b)⌋ = -n := by
    rw [Int.floor_eq_iff]
    push_cast
    constructor
    · have : a / b ≤ n := (div_le_iff₀ hb).mpr h1
      linarith
    · have : (n : K) - 1 < a / b := (lt_div_iff₀ hb).mpr h2
      linarith
  rw [jsMod, jsTrunc, if_neg hd0, hfl, ← hr]
  push_cast
  ring

end EvalHelpers

/-- Evaluation of the concrete plot `plotFinal`. -/
theorem plotFinal_eval :
    plotFinal =
      { type := .curve, segments := [10], angles := [40, 77],
        pres := [2, 3], dir := 0, length := 10, origin := none } := by
  have e1 : jsMod (400 : ℚ) 360 = 40 :=
    jsMod_eq_of _ _ _ 1 (by norm_num) (by norm_num) (by norm_num)
      (by norm_num) (by norm_num)
  norm_num [plotFinal, Plot.build, PlotOp.apply, Plot.addSegment,
    Plot.endPlot, Plot.init, toDegrees, e1]

/-!
## Claim C2: clamped extrapolation past the total length
-/

/-- C2 (confirmed): for every plot and every distance `d` beyond
`totalLength`, `Plot.pressure` returns the last recorded pressure sample
and `Plot.angle` returns the last recorded angle sample (the value at the
final node), whatever `(index, suma)` state the object holds. -/
theorem plot_clamped_extrapolation {K : Type*} [LinearOrderedField K]
    [FloorRing K] (p : Plot K) (st : ℤ × K) (d : K)
    (hd : p.length < d) :
    p.pressure st d = p.pres.getLast? ∧
    p.angle d = p.angles.getLast? := by
  constructor
  · rw [Plot.pressure, if_pos hd]
    exact jsGet_last p.pres
  · rw [Plot.angle, if_pos hd]
    exact jsGet_last p.angles

/-- Witness for C2 on a concrete finalized plot at `d = 11 > 10`. -/
theorem plot_clamped_extrapolation_witness :
    plotFinal.pressure (0, 0) 11 = some 3 ∧
    plotFinal.angle 11 = some 77 := by
  have h := plot_clamped_extrapolation plotFinal (0, 0) 11
    (by rw [plotFinal_eval]; norm_num)
  rw [h.1, h.2, plotFinal_eval]
  simp

/-!
## Claim C3: normalization of stored angles
-/

/-- Evaluation of the concrete plot `plotEndRaw`: the final angle stored
by `endPlot` is the raw argument `700`. -/
theorem plotEndRaw_eval :
    plotEndRaw =
      { type := .curve, segments := [10], angles := [0, 700],
        pres := [1, 1], dir := 0, length := 10, origin := none } := by
  have e1 : jsMod (360 : ℚ) 360 = 0 :=
    jsMod_eq_of _ _ _ 1 (by norm_num) (by norm_num) (by norm_num)
      (by norm_num) (by norm_num)
  norm_num [plotEndRaw, Plot.build, PlotOp.apply, Plot.addSegment,
    Plot.endPlot, Plot.init, toDegrees, e1]

/-- C3 counterexample: a plot built by `addSegment`/`endPlot` calls whose
angle list contains `700`, so not every stored angle lies in `[0, 360)`
(`endPlot` stores its angle argument unnormalized). -/
theorem plot_angles_unnormalized_counterexample :
    ¬ (∀ x ∈ plotEndRaw.angles, 0 ≤ x ∧ x < 360) := by
  intro h
  have := (h 700 (by rw [plotEndRaw_eval]; simp)).2
  norm_num at this

/-- C3 (amended): along any sequence of `addSegment`/`endPlot` calls whose
`addSegment` angle arguments are (after angle-mode conversion) at least
`-360`, every stored angle except possibly the final node sample lies in
`[0, 360)`; only `endPlot` can store an out-of-range final sample. -/
theorem plot_angles_normalized_amended {K : Type*} [LinearOrderedField K]
    [FloorRing K] (radMode : Bool) (piv : K) (t : PlotType)
    (ops : List (PlotOp K))
    (h : ∀ a len pres dg, PlotOp.add a len pres dg ∈ ops →
      -360 ≤ toDegrees radMode piv a dg) :
    ∀ x ∈ (Plot.build radMode piv t ops).angles.dropLast,
      0 ≤ x ∧ x < 360 := by
  induction ops using List.reverseRecOn with
  | nil =>
    intro x hx
    exact absurd hx (by simp [Plot.build, Plot.init])
  | append_singleton ops op ih =>
    have hprev : ∀ a len pres dg, PlotOp.add a len pres dg ∈ ops →
        -360 ≤ toDegrees radMode piv a dg := by
      intro a len pres dg hmem
      exact h a len pres dg (by simp [hmem])
    have hstep : Plot.build radMode piv t (ops ++ [op]) =
        PlotOp.apply radMode piv (Plot.build radMode piv t ops) op := by
      rw [Plot.build, List.foldl_append]
      rfl
    rw [hstep]
    cases op with
    | add a len pres dg =>
      intro x hx
      exact addSegment_angles_range radMode piv _ a len pres dg (ih hprev)
        (h a len pres dg (by simp)) x (List.dropLast_subset _ hx)
    | fin a pres dg =>
      exact endPlot_angles_dropLast_range radMode piv _ a pres dg (ih hprev)

/-- Witness for the amended C3 on a concrete builder sequence (including
a negative angle argument normalized into range): the non-final stored
angle `340` produced by `addSegment(700, …)` lies in `[0, 360)`. -/
theorem plot_angles_normalized_amended_witness :
    (340 : ℚ) ∈ (Plot.build false (0:ℚ) .curve
        [.add (-90) 5 1 true, .add 700 5 1 true,
         .fin 700 1 true]).angles.dropLast ∧
    0 ≤ (340 : ℚ) ∧ (340 : ℚ) < 360 := by
  have e1 : jsMod (270:ℚ) 360 = 270 :=
    jsMod_eq_of 270 360 270 0 (by norm_num) (by norm_num) (by norm_num)
      (by norm_num) (by norm_num)
  have e2 : jsMod (1060:ℚ) 360 = 340 :=
    jsMod_eq_of 1060 360 340 2 (by norm_num) (by norm_num) (by norm_num)
      (by norm_num) (by norm_num)
  have hmem : (340 : ℚ) ∈ (Plot.build false (0:ℚ) .curve
      [.add (-90) 5 1 true, .add 700 5 1 true,
       .fin 700 1 true]).angles.dropLast := by
    norm_num [Plot.build, PlotOp.apply, Plot.addSegment, Plot.endPlot,
      Plot.init, toDegrees, e1, e2]
  refine ⟨hmem, plot_angles_normalized_amended false 0 .curve _ ?_ 340 hmem⟩
  intro a len pres dg hmem2
  simp only [List.mem_cons, List.not_mem_nil, or_false] at hmem2
  rcases hmem2 with h | h | h
  · injection h with h1 h2 h3 h4
    subst h1; subst h4
    norm_num [toDegrees]
  · injection h with h1 h2 h3 h4
    subst h1; subst h4
    norm_num [toDegrees]
  · exact PlotOp.noConfusion h

/-!
## Claim C1: shortest-path angle interpolation for curve plots
-/

/-- Evaluation rule for `posMod` at concrete inputs. -/
theorem posMod_eq_of {K : Type*} [LinearOrderedField K] [FloorRing K]
    (a m r : K) (n : ℤ) (hm : 0 < m)
    (h1 : (n : K) * m ≤ a) (h2 : a < ((n : K) + 1) * m)
    (hr : a - m * n = r) : posMod a m = r := by
  have hfl : ⌊a / m⌋ = n := by
    rw [Int.floor_eq_iff]
    constructor
    · rw [le_div_iff₀ hm]; exact h1
    · rw [div_lt_iff₀ hm]; push_cast; linarith
  rw [posMod, hfl, hr]

/-- Evaluation of the concrete plot `plotWrap`: two node samples `350`
and `10` straddling the `0/360` boundary. -/
theorem plotWrap_eval :
    plotWrap =
      { type := .curve, segments := [10], angles := [350, 10],
        pres := [1, 1], dir := 0, length := 10, origin := none } := by
  have e1 : jsMod (710 : ℚ) 360 = 350 :=
    jsMod_eq_of _ _ _ 1 (by norm_num) (by norm_num) (by norm_num)
      (by norm_num) (by norm_num)
  norm_num [plotWrap, Plot.build, PlotOp.apply, Plot.addSegment,
    Plot.endPlot, Plot.init, toDegrees, e1]

/-- Evaluation of the concrete plot `plotLongway` (same builder calls as
`plotEndRaw`): the trailing sample is the unnormalized `700`. -/
theorem plotLongway_eval :
    plotLongway =
      { type := .curve, segments := [10], angles := [0, 700],
        pres := [1, 1], dir := 0, length := 10, origin := none } := by
  have e1 : jsMod (360 : ℚ) 360 = 0 :=
    jsMod_eq_of _ _ _ 1 (by norm_num) (by norm_num) (by norm_num)
      (by norm_num) (by norm_num)
  norm_num [plotLongway, Plot.build, PlotOp.apply, Plot.addSegment,
    Plot.endPlot, Plot.init, toDegrees, e1]

/-- C1 (amended): for a curve plot all of whose stored angle samples lie
in `[0, 360)`, whenever `angle` interpolates at a distance (so `curving`
produces a value `o`), the two bracketing node samples `a` and `b` are
adjusted only by a possible `-360` shift, the adjusted endpoints span
exactly the circular (mod 360) distance of the samples — in particular at
most `180°`, the shortest angular path — and the interpolated value `o`
stays between the adjusted endpoints. -/
theorem curve_interpolation_shortest_path {K : Type*}
    [LinearOrderedField K] [FloorRing K] (p : Plot K)
    (htype : p.type = PlotType.curve)
    (hang : ∀ x ∈ p.angles, 0 ≤ x ∧ x < 360)
    (dst o : K) (hd : ¬ p.length < dst)
    (ho : p.curving (p.calcIndex dst) p.angles dst = some o) :
    p.angle dst = some (o + p.dir) ∧
    ∃ a b, jsGet p.angles (p.calcIndex dst).1 = some a ∧
      b = (jsGet p.angles ((p.calcIndex dst).1 + 1)).getD a ∧
      ((curvingAdjust a b).1 = a ∨ (curvingAdjust a b).1 = a - 360) ∧
      ((curvingAdjust a b).2 = b ∨ (curvingAdjust a b).2 = b - 360) ∧
      |(curvingAdjust a b).2 - (curvingAdjust a b).1| = circDist a b ∧
      |(curvingAdjust a b).2 - (curvingAdjust a b).1| ≤ 180 ∧
      min (curvingAdjust a b).1 (curvingAdjust a b).2 ≤ o ∧
      o ≤ max (curvingAdjust a b).1 (curvingAdjust a b).2 := by
  constructor
  · rw [Plot.angle, if_neg hd, htype]
    dsimp only
    rw [ho]
    rfl
  · rw [Plot.curving] at ho
    cases hma : jsGet p.angles (p.calcIndex dst).1 with
    | none => rw [hma] at ho; exact absurd ho (by simp)
    | some map0 =>
      rw [hma] at ho
      cases hms : jsGet p.segments (p.calcIndex dst).1 with
      | none =>
        rw [hms] at ho
        exact absurd ho (by simp)
      | some seg =>
        rw [hms] at ho
        simp only [Option.some.injEq] at ho
        refine ⟨map0, (jsGet p.angles ((p.calcIndex dst).1 + 1)).getD map0,
          rfl, rfl, ?_⟩
        have h0 := hang map0 (jsGet_mem hma)
        have hbm : 0 ≤ (jsGet p.angles ((p.calcIndex dst).1 + 1)).getD map0 ∧
            (jsGet p.angles ((p.calcIndex dst).1 + 1)).getD map0 < 360 := by
          cases hmb : jsGet p.angles ((p.calcIndex dst).1 + 1) with
          | none => simpa using h0
          | some x => simpa using hang x (jsGet_mem hmb)
        have hsp := curvingAdjust_shortest h0 hbm
        have hrb := Rmap_bounds (dst - (p.calcIndex dst).2) 0 seg
          (curvingAdjust map0
            ((jsGet p.angles ((p.calcIndex dst).1 + 1)).getD map0)).1
          (curvingAdjust map0
            ((jsGet p.angles ((p.calcIndex dst).1 + 1)).getD map0)).2
        rw [ho] at hrb
        exact ⟨hsp.1, hsp.2.1, hsp.2.2.1, hsp.2.2.2, hrb.1, hrb.2⟩

/-- Witness for the amended C1 on the concrete plot whose samples `350`
and `10` straddle the `0/360` boundary: the interpolated value at `d = 5`
is `0`, reached on the shortest angular path. -/
theorem curve_interpolation_shortest_path_witness :
    plotWrap.type = PlotType.curve ∧
    (∀ x ∈ plotWrap.angles, 0 ≤ x ∧ x < 360) ∧
    plotWrap.angle 5 = some (0 + plotWrap.dir) ∧
    (∃ a b, jsGet plotWrap.angles (plotWrap.calcIndex 5).1 = some a ∧
      b = (jsGet plotWrap.angles ((plotWrap.calcIndex 5).1 + 1)).getD a ∧
      ((curvingAdjust a b).1 = a ∨ (curvingAdjust a b).1 = a - 360) ∧
      ((curvingAdjust a b).2 = b ∨ (curvingAdjust a b).2 = b - 360) ∧
      |(curvingAdjust a b).2 - (curvingAdjust a b).1| = circDist a b ∧
      |(curvingAdjust a b).2 - (curvingAdjust a b).1| ≤ 180 ∧
      min (curvingAdjust a b).1 (curvingAdjust a b).2 ≤ (0:ℚ) ∧
      (0:ℚ) ≤ max (curvingAdjust a b).1 (curvingAdjust a b).2) := by
  have hcv : plotWrap.curving (plotWrap.calcIndex 5) plotWrap.angles 5 =
      some 0 := by
    rw [plotWrap_eval]
    have habs : |(10:ℚ) - 350| = 340 := by
      rw [abs_of_nonpos (by norm_num)]; norm_num
    norm_num [Plot.calcIndex, calcLoop, Plot.curving, jsGet, curvingAdjust,
      habs, Rmap, Rconstrain]
  have h := curve_interpolation_shortest_path plotWrap
    (by rw [plotWrap_eval]) (by rw [plotWrap_eval]; norm_num) 5 0
    (by rw [plotWrap_eval]; norm_num) hcv
  exact ⟨by rw [plotWrap_eval], by rw [plotWrap_eval]; norm_num, h.1, h.2⟩

/-- C1 counterexample: on the curve plot built by
`addSegment(0,10,1)`, `endPlot(700,1)` the interpolation between the
consecutive node samples `0` and `700` does not follow the shortest
angular path: the samples are only `20°` apart circularly, yet the
adjusted interpolation endpoints `(0, 340)` span `340° > 180°`, and the
sampled value at `d = 5` is `170`, circularly `170°` away from both
samples. -/
theorem curve_interpolation_longway_counterexample :
    plotLongway.type = PlotType.curve ∧
    jsGet plotLongway.angles 0 = some 0 ∧
    jsGet plotLongway.angles 1 = some 700 ∧
    plotLongway.curving (plotLongway.calcIndex 5) plotLongway.angles 5 =
      some 170 ∧
    curvingAdjust (0:ℚ) 700 = (0, 340) ∧
    ¬ (|(curvingAdjust (0:ℚ) 700).2 - (curvingAdjust (0:ℚ) 700).1| ≤ 180) ∧
    circDist (0:ℚ) 700 = 20 ∧
    circDist (170:ℚ) 0 = 170 ∧
    circDist (170:ℚ) 340 = 170 := by
  have habs : |(700:ℚ) - 0| = 700 := by
    rw [abs_of_nonneg (by norm_num)]; norm_num
  have hadj : curvingAdjust (0:ℚ) 700 = (0, 340) := by
    norm_num [curvingAdjust, habs]
  refine ⟨by rw [plotLongway_eval], ?_, ?_, ?_, hadj, ?_, ?_, ?_, ?_⟩
  · rw [plotLongway_eval]; norm_num [jsGet]
  · rw [plotLongway_eval]; norm_num [jsGet]
  · rw [plotLongway_eval]
    norm_num [Plot.calcIndex, calcLoop, Plot.curving, jsGet, curvingAdjust,
      habs, Rmap, Rconstrain]
  · rw [hadj]
    norm_num
  · rw [circDist, posMod_eq_of ((0:ℚ) - 700) 360 20 (-2) (by norm_num)
      (by norm_num) (by norm_num) (by norm_num)]
    norm_num
  · rw [circDist, posMod_eq_of ((170:ℚ) - 0) 360 170 0 (by norm_num)
      (by norm_num) (by norm_num) (by norm_num)]
    norm_num
  · rw [circDist, posMod_eq_of ((170:ℚ) - 340) 360 190 (-1) (by norm_num)
      (by norm_num) (by norm_num) (by norm_num)]
    norm_num

/-!
## Claim C10: the bleed setter caps at one half
-/

/-- C10 (confirmed): `setBleed(i)` stores `i` when `i ≤ 0.5` and stores
exactly `0.5` when `i > 0.5`; in particular the stored bleed factor never
exceeds `0.5`. -/
theorem setBleed_cap {K : Type*} [LinearOrderedField K] (i : K) :
    (i ≤ 1/2 → setBleed i = i) ∧ (1/2 < i → setBleed i = (1/2 : K)) ∧
    setBleed i ≤ 1/2 := by
  unfold setBleed
  split_ifs with h
  · exact ⟨fun hle => absurd h (not_lt.mpr hle), fun _ => rfl, le_refl _⟩
  · exact ⟨fun _ => rfl, fun hlt => absurd hlt h, not_lt.mp h⟩

/-- Witness for C10 at the concrete intensities `0.3` and `0.7`. -/
theorem setBleed_cap_witness :
    setBleed (3/10 : ℚ) = 3/10 ∧ setBleed (7/10 : ℚ) = 1/2 ∧
    setBleed (7/10 : ℚ) ≤ 1/2 :=
  ⟨(setBleed_cap (3/10 : ℚ)).1 (by norm_num),
   (setBleed_cap (7/10 : ℚ)).2.1 (by norm_num),
   (setBleed_cap (7/10 : ℚ)).2.2⟩

/-- Algebraic core of the endpoint-swap symmetry: the coordinates of the
meeting point computed from either end of the query segment agree
whenever the two intersection-parameter numerators differ by the
denominator. -/
theorem intersect_point_swap_eq {K : Type*} [LinearOrderedField K]
    (x1 x2 A B D : K) (hden : D ≠ 0) (hAB : A - B = D) :
    x2 + B / -D * (x1 - x2) = x1 + A / D * (x2 - x1) := by
  have hB : B = A - D := by linarith
  rw [hB, div_neg]
  field_simp
  ring

/-- Swapping the first segment's endpoints does not change
`_intersectLines`: the degeneracy and parallel tests are symmetric, the
second segment's parameter `ub` is unchanged, and the computed meeting
point of the two carrier lines is the same. -/
theorem intersectLines_swap {K : Type*} [LinearOrderedField K]
    (p1 p2 q1 q2 : K × K) (ext : Bool) :
    intersectLines p2 p1 q1 q2 ext = intersectLines p1 p2 q1 q2 ext := by
  unfold intersectLines
  by_cases hdeg : p1 = p2 ∨ q1 = q2
  · have hdeg' : p2 = p1 ∨ q1 = q2 := Or.imp Eq.symm id hdeg
    rw [if_pos hdeg', if_pos hdeg]
  · have hdeg' : ¬ (p2 = p1 ∨ q1 = q2) := by
      rintro (h | h)
      · exact hdeg (Or.inl h.symm)
      · exact hdeg (Or.inr h)
    rw [if_neg hdeg', if_neg hdeg]
    dsimp only
    set D := (q2.2 - q1.2) * (p2.1 - p1.1) - (q2.1 - q1.1) * (p2.2 - p1.2)
      with hD
    have hD' : (q2.2 - q1.2) * (p1.1 - p2.1) - (q2.1 - q1.1) * (p1.2 - p2.2)
        = -D := by rw [hD]; ring
    rw [hD']
    by_cases hden : D = 0
    · rw [if_pos (by rw [hden]; ring), if_pos hden]
    · rw [if_neg (by simpa using hden), if_neg hden]
      have hub : ((p1.1 - p2.1) * (p2.2 - q1.2) -
          (p1.2 - p2.2) * (p2.1 - q1.1)) / -D =
          ((p2.1 - p1.1) * (p1.2 - q1.2) -
          (p2.2 - p1.2) * (p1.1 - q1.1)) / D := by
        rw [div_eq_div_iff (by simpa using hden) hden]
        ring
      rw [hub]
      by_cases hcond : ext = false ∧
          (((p2.1 - p1.1) * (p1.2 - q1.2) -
            (p2.2 - p1.2) * (p1.1 - q1.1)) / D < 0 ∨
           ((p2.1 - p1.1) * (p1.2 - q1.2) -
            (p2.2 - p1.2) * (p1.1 - q1.1)) / D > 1)
      · rw [if_pos hcond, if_pos hcond]
      · rw [if_neg hcond, if_neg hcond]
        have hAB : ((q2.1 - q1.1) * (p1.2 - q1.2) -
            (q2.2 - q1.2) * (p1.1 - q1.1)) -
            ((q2.1 - q1.1) * (p2.2 - q1.2) -
            (q2.2 - q1.2) * (p2.1 - q1.1)) = D := by
          rw [hD]; ring
        rw [intersect_point_swap_eq p1.1 p2.1 _ _ D hden hAB,
          intersect_point_swap_eq p1.2 p2.2 _ _ D hden hAB]

/-- C8 (confirmed): `Polygon.intersect` returns the same intersection
points (as the same list, side by side) when the query segment's two
endpoints are exchanged. -/
theorem polygon_intersect_symm {K : Type*} [LinearOrderedField K]
    (pg : Polygon K) (p1 p2 : K × K) :
    pg.intersect p2 p1 = pg.intersect p1 p2 := by
  unfold Polygon.intersect
  exact List.filterMap_congr
    (fun s _ => intersectLines_swap p1 p2 s.1 s.2 false)

/-!
## Claims C5/C6: behaviour outside the field/canvas bounds
-/

/-- C5 (amended): outside the active field/canvas bounds, `moveTo`
performs no geometric movement and advances the `plotted` counter by
exactly one step length — not by the requested length.  (Every in-repo
caller invokes `moveTo` with `length = stepLength`, so for those calls
the single-step advance does equal the requested length.) -/
theorem moveTo_outside_single_step {K : Type*} [LinearOrderedField K]
    [FloorRing K] (e : FFEnv K) (p : Pos K) (len dir step : K)
    (isFlow : Bool) (h : ¬ p.isIn e) :
    p.moveTo e len dir step isFlow = { p with plotted := p.plotted + step } := by
  rw [Pos.moveTo, if_neg h]

theorem posFarQ_eval : posFarQ = ⟨1000, 1000, 0, 0, 0⟩ := by
  simp [posFarQ, Pos.make, Pos.update, envPlainQ]

theorem posFarQ_notIn : ¬ posFarQ.isIn envPlainQ := by
  rw [posFarQ_eval]
  simp only [Pos.isIn, Pos.isInCanvas, envPlainQ]
  norm_num

/-- Witness for the amended C5: at the concrete outside position,
`moveTo` with requested length `10` and step length `1` leaves the
coordinates unchanged and advances `plotted` by the single step `1`. -/
theorem moveTo_outside_single_step_witness :
    ¬ posFarQ.isIn envPlainQ ∧
    posFarQ.moveTo envPlainQ 10 0 1 true =
      { posFarQ with plotted := posFarQ.plotted + 1 } :=
  ⟨posFarQ_notIn,
   moveTo_outside_single_step envPlainQ posFarQ 10 0 1 true posFarQ_notIn⟩

/-- C5 counterexample: for the outside position, `moveTo(10, 0, 1,
true)` leaves `x`/`y` unchanged but advances `plotted` by `1`, not by
the requested length `10` — refuting the claim that the counter advances
by the amount corresponding to the requested length. -/
theorem moveTo_outside_counterexample :
    ¬ posFarQ.isIn envPlainQ ∧
    (posFarQ.moveTo envPlainQ 10 0 1 true).x = posFarQ.x ∧
    (posFarQ.moveTo envPlainQ 10 0 1 true).y = posFarQ.y ∧
    (posFarQ.moveTo envPlainQ 10 0 1 true).plotted = posFarQ.plotted + 1 ∧
    posFarQ.plotted + 1 ≠ posFarQ.plotted + 10 := by
  have h := posFarQ_notIn
  rw [Pos.moveTo, if_neg h]
  refine ⟨h, rfl, rfl, rfl, ?_⟩
  rw [posFarQ_eval]
  norm_num

/-- C6 (code bug): outside the field bounds, the angle lookup and
`moveTo` degrade gracefully, but `plotTo` executes
`this.plotted += _step_length / scale` with the undeclared global
`scale` (a typo for the `_scale` parameter): with the global binding not
numeric (`none`), the position state is poisoned (`NaN` under p5's
global mode, a `ReferenceError` otherwise) instead of advancing
normally. -/
theorem plotTo_outside_global_scale_bug :
    ¬ posFarQ.isIn envPlainQ ∧
    Pos.angle envPlainQ posFarQ = 0 ∧
    posFarQ.moveTo envPlainQ 10 0 1 true =
      { posFarQ with plotted := posFarQ.plotted + 1 } ∧
    posFarQ.plotTo envPlainQ none plotFinal 10 1 2 = none := by
  have h := posFarQ_notIn
  refine ⟨h, ?_, ?_, ?_⟩
  · rw [Pos.angle, if_neg (by simp [h])]
  · rw [Pos.moveTo, if_neg h]
  · rw [Pos.plotTo, if_neg h]
    rfl

/-!
## Claim C7: a uniformly-zero flow field draws like a plain line
-/

/-- With a uniformly zero field, one `moveTo` step with flow equals one
`moveTo` step without flow: the per-step direction pair degenerates to
`(cos(-dir), sin(-dir))`. -/
theorem moveTo_flow_eq_of_zero_field {K : Type*} [LinearOrderedField K]
    [FloorRing K] (e : FFEnv K) (hfield : ∀ i j, e.flowField i j = 0)
    (dir step : K) :
    (fun q : Pos K => q.moveTo e step dir step true) =
    (fun q : Pos K => q.moveTo e step dir step false) := by
  funext q
  unfold Pos.moveTo
  have hms : Pos.moveStep e dir step true (e.cosF (-dir), e.sinF (-dir)) =
      Pos.moveStep e dir step false (e.cosF (-dir), e.sinF (-dir)) := by
    funext r
    unfold Pos.moveStep
    have ha : r.angle e = 0 := by
      unfold Pos.angle
      split_ifs with hc
      · exact hfield _ _
      · rfl
    simp [ha, zero_sub]
  rw [hms]

/-- C7 (confirmed): with an active flow field whose cells are uniformly
`0`, `flowLine(x, y, length, dir)` — with the length and direction of
the segment from `(x, y)` to `(x2, y2)` — produces exactly the same
sequence of tip position states (coordinates, field indices and
`plotted` counter, hence also the pressure parameters derived from them)
as the plain `line(x, y, x2, y2)`. -/
theorem flowLine_uniform_zero_matches_line (e : FFEnv ℝ)
    (hact : e.isActive = true) (hfield : ∀ i j, e.flowField i j = 0)
    (x y x2 y2 step : ℝ) :
    flowLineTipPositions false Real.pi e x y (distR x y x2 y2)
      (calculateAngle x y x2 y2) step =
    lineTipPositions e x y x2 y2 step := by
  unfold flowLineTipPositions lineTipPositions drawTipPositions
  rw [show toDegrees false Real.pi (calculateAngle x y x2 y2) false =
    calculateAngle x y x2 y2 from rfl]
  rw [moveTo_flow_eq_of_zero_field e hfield (calculateAngle x y x2 y2) step]

/-- Witness for C7 at a concrete environment and stroke. -/
theorem flowLine_uniform_zero_matches_line_witness :
    flowLineTipPositions false Real.pi envUniformZeroR 1 2
      (distR 1 2 51 42) (calculateAngle 1 2 51 42) 3 =
    lineTipPositions envUniformZeroR 1 2 51 42 3 :=
  flowLine_uniform_zero_matches_line envUniformZeroR rfl
    (fun _ _ => rfl) 1 2 51 42 3

/-!
## Claim C9: `grow(0)` preserves the vertex count
-/

/-- C9 (confirmed): one `grow(0)` processes every vertex and pushes two
vertices per processed vertex, so it doubles the vertex count; applying
it twice yields `4n ≥ n` vertices — the shape never collapses below its
original vertex count, for any random draws. -/
theorem length_flatMap_two {α β : Type*} (l : List α) (g : α → List β)
    (h : ∀ a ∈ l, (g a).length = 2) : (l.flatMap g).length = 2 * l.length := by
  induction l with
  | nil => simp
  | cons a t ih =>
    simp only [List.flatMap_cons, List.length_append,
      h a (List.mem_cons_self a t),
      ih (fun b hb => h b (List.mem_cons_of_mem a hb)), List.length_cons]
    ring

theorem fillPolygon_grow_zero_doubles (radMode : Bool)
    (g : FillPolygon) (r : ℕ → GrowRand) :
    (g.grow radMode r 0 false).v.length = 2 * g.v.length := by
  have hvtp : ¬ ((0:ℝ) ≥ 1/5) := by norm_num
  dsimp only [FillPolygon.grow, FillPolygon.make]
  rw [if_neg hvtp]
  rw [length_flatMap_two _ _ ?_, List.length_map, List.length_range]
  intro a ha
  obtain ⟨i, _, hfi⟩ := List.mem_map.mp ha
  rw [← hfi]
  rfl

theorem fillPolygon_grow_zero_counts (fp : FillPolygon)
    (radMode : Bool) (r1 r2 : ℕ → GrowRand) :
    (fp.grow radMode r1 0 false).v.length = 2 * fp.v.length ∧
    ((fp.grow radMode r1 0 false).grow radMode r2 0 false).v.length =
      4 * fp.v.length ∧
    fp.v.length ≤ (fp.grow radMode r1 0 false).v.length ∧
    fp.v.length ≤
      ((fp.grow radMode r1 0 false).grow radMode r2 0 false).v.length := by
  have h1 := fillPolygon_grow_zero_doubles radMode fp r1
  have h2 := fillPolygon_grow_zero_doubles radMode
    (fp.grow radMode r1 0 false) r2
  refine ⟨h1, ?_, ?_, ?_⟩
  · rw [h2, h1]; ring
  · rw [h1]; omega
  · rw [h2, h1]; omega

/-!
## Claim C4: the zero-curvature spline on `[(0,0),(10,0),(10,10)]`
-/

theorem distR_horizontal_ten : distR 0 0 10 0 = 10 := by
  have h : ((10:ℝ) - 0)^2 + ((0:ℝ) - 0)^2 = 10^2 := by norm_num
  rw [distR, h, Real.sqrt_sq (by norm_num)]

theorem distR_vertical_ten : distR 10 0 10 10 = 10 := by
  have h : ((10:ℝ) - 10)^2 + ((10:ℝ) - 0)^2 = 10^2 := by norm_num
  rw [distR, h, Real.sqrt_sq (by norm_num)]

/-- The bearing of the rightward segment `(0,0) → (10,0)` is `0°`. -/
theorem calculateAngle_right : calculateAngle 0 0 10 0 = 0 := by
  unfold calculateAngle atan2R
  have h1 : (⟨10 - 0, -((0:ℝ) - 0)⟩ : ℂ) = ((10:ℝ) : ℂ) := by
    apply Complex.ext <;> norm_num
  rw [h1, Complex.arg_ofReal_of_nonneg (by norm_num : (0:ℝ) ≤ 10)]
  dsimp only
  rw [zero_mul]
  rw [jsMod_eq_of 0 360 0 0 (by norm_num) (by norm_num) (by norm_num)
    (by norm_num) (by norm_num)]
  rw [zero_add]
  exact jsMod_eq_of 360 360 0 1 (by norm_num) (by norm_num) (by norm_num)
    (by norm_num) (by norm_num)

/-- The bearing of the screen-downward segment `(10,0) → (10,10)` is
`270°` (the source negates the y-difference, measuring anticlockwise
with the y-axis pointing down, then normalizes `-90` to `270`). -/
theorem calculateAngle_down : calculateAngle 10 0 10 10 = 270 := by
  unfold calculateAngle atan2R
  have h1 : (⟨10 - 10, -((10:ℝ) - 0)⟩ : ℂ) = ((10:ℝ) : ℂ) * (-Complex.I) := by
    apply Complex.ext <;> simp
  rw [h1, Complex.arg_real_mul _ (by norm_num : (0:ℝ) < 10),
    Complex.arg_neg_I]
  dsimp only
  have hdeg : -(Real.pi / 2) * (180 / Real.pi) = -90 := by
    field_simp
    ring
  rw [hdeg]
  rw [jsMod_eq_of_neg (-90) 360 (-90) 0 (by norm_num) (by norm_num)
    (by norm_num) (by norm_num) (by norm_num)]
  norm_num
  exact jsMod_eq_of 270 360 270 0 (by norm_num) (by norm_num) (by norm_num)
    (by norm_num) (by norm_num)

/-- Full evaluation of the zero-curvature spline over the three points
`(0,0)`, `(10,0)`, `(10,10)` (degree angle mode). -/
theorem spline_c4_build_eval :
    Spline.build false Real.pi [(0,0,1),(10,0,1),(10,10,1)] 0 =
      some { type := .segments, segments := [10, 10],
             angles := [0, 270, 270], pres := [1, 1, 1], dir := 0,
             length := 20, origin := some (0, 0) } := by
  have hn1 : jsMod (360:ℝ) 360 = 0 :=
    jsMod_eq_of 360 360 0 1 (by norm_num) (by norm_num) (by norm_num)
      (by norm_num) (by norm_num)
  have hn2 : jsMod (630:ℝ) 360 = 270 :=
    jsMod_eq_of 630 360 270 1 (by norm_num) (by norm_num)
      (by norm_num) (by norm_num) (by norm_num)
  norm_num [Spline.build, splineLoop, Plot.init, Plot.addSegment,
    Plot.endPlot, toDegrees, distR_horizontal_ten, distR_vertical_ten,
    calculateAngle_right, calculateAngle_down, hn1, hn2]

/-- C4 counterexample: the zero-curvature spline on
`[(0,0),(10,0),(10,10)]` does yield 2 segments of total length 20, but
the second bearing is `270°`, not `90°`: sampling the plot's angle
inside the second segment gives `270`. -/
theorem spline_zero_curvature_bearing_counterexample :
    ∃ p, Spline.build false Real.pi [(0,0,1),(10,0,1),(10,10,1)] 0 =
      some p ∧
      p.segments.length = 2 ∧ p.length = 20 ∧
      p.angle 15 = some 270 ∧ p.angle 15 ≠ some 90 := by
  refine ⟨_, spline_c4_build_eval, rfl, rfl, ?_, ?_⟩
  · norm_num [Plot.angle, Plot.calcIndex, calcLoop, jsGet]
  · norm_num [Plot.angle, Plot.calcIndex, calcLoop, jsGet]

/-- C4 (amended): constructing a `Spline` with curvature `0` from
`[(0,0),(10,0),(10,10)]` yields a plot with exactly 2 segments of
length 10 each, total length 20, and segment bearings `0°` and `270°`
(the source's bearings are measured anticlockwise with the screen y-axis
pointing down, so the downward segment gets `270°`, not `90°`). -/
theorem spline_zero_curvature_eval :
    ∃ p, Spline.build false Real.pi [(0,0,1),(10,0,1),(10,10,1)] 0 =
      some p ∧
      p.segments = [10, 10] ∧ p.length = 20 ∧
      p.angles = [0, 270, 270] ∧
      p.angle 5 = some 0 ∧ p.angle 15 = some 270 := by
  refine ⟨_, spline_c4_build_eval, rfl, rfl, rfl, ?_, ?_⟩
  · norm_num [Plot.angle, Plot.calcIndex, calcLoop, jsGet]
  · norm_num [Plot.angle, Plot.calcIndex, calcLoop, jsGet]

